import Mathlib

/-!
# Verification of the dharma.talk repository

Shallow embedding of the incremental talk fetcher
(`db/dharmaseed_scrape_talks.py`) and of the forwarding development proxy
(`server.py`), together with proofs of the specification's testable
properties.

Conventions of the embedding:
* Records persisted in a snapshot are JSON objects; the merge logic only
  ever inspects the `id` field (Python `t["id"]`), so a record is embedded
  as its integer id together with the remaining fields carried opaquely.
* The network is external: the outcome of the detail-fetch-and-parse
  pipeline for a given id is an oracle `details : Int → Option TalkRec`
  (`None` models `fetch_talk_details` exhausting its retries), and the
  remote listing is a plain list of ids.
* Real time (the politeness `time.sleep` calls) is not modelled, except
  that the retry loop records the durations it would sleep, which is what
  the backoff property talks about.
-/

namespace DharmaTalk

/-- A talk record as stored in the snapshot JSON array: the integer `id`
plus the remaining named fields, which the fetch-merge logic never
inspects and which are therefore carried opaquely. -/
structure TalkRec where
  id : Int
  rest : List (String × String)
deriving DecidableEq, Repr

/-- `all_talks.sort(key=lambda t: t["id"], reverse=True)` — Python's
stable sort by id descending (newest first), embedded as a stable sort
(insertion sort) with the same comparison. -/
def sortTalks (talks : List TalkRec) : List TalkRec :=
  List.insertionSort (fun a b => b.id ≤ a.id) talks

/-- `[tid for tid in all_ids if tid not in existing_ids]` where
`existing_ids = {t["id"] for t in talks}`. -/
def newIdsOf (existing_talks : List TalkRec) (all_ids : List Int) : List Int :=
  all_ids.filter (fun tid => !(existing_talks.map TalkRec.id).contains tid)

/-- Python slice `xs[:l]` for an `int` bound `l` (a negative bound counts
from the end, clamped at zero). -/
def pySliceTo (l : Int) (xs : List Int) : List Int :=
  if 0 ≤ l then xs.take l.toNat else xs.take ((xs.length : Int) + l).toNat

/-- `if limit and limit < len(new_ids): new_ids = new_ids[:limit]` —
`limit` is falsy when it is `None` or `0`. -/
def pyLimit (limit : Option Int) (new_ids : List Int) : List Int :=
  match limit with
  | none => new_ids
  | some l =>
    if l ≠ 0 ∧ l < (new_ids.length : Int) then pySliceTo l new_ids else new_ids

/-- The body of the `for i, talk_id in enumerate(new_ids)` loop of
`fetch_talks_incremental`: fetch each id once, append the parsed record on
success, and every `save_interval` iterations persist the current merged
and sorted state.  Returns the accumulated new records and the list of
states passed to `save_talks_to_json`, in chronological order. -/
def fetchLoopTalks (details : Int → Option TalkRec) (existing : List TalkRec)
    (save_interval : Nat) :
    List Int → Nat → List TalkRec → List TalkRec × List (List TalkRec)
  | [], _, newTalks => (newTalks, [])
  | tid :: restIds, i, newTalks =>
    let newTalks2 := match details tid with
      | some r => newTalks ++ [r]
      | none => newTalks
    let p := fetchLoopTalks details existing save_interval restIds (i + 1) newTalks2
    if (i + 1) % save_interval == 0 then
      (p.1, sortTalks (existing ++ newTalks2) :: p.2)
    else p

/-- Observable outcome of one call to `fetch_talks_incremental`:
the returned list, the snapshot states persisted by the in-loop
checkpoints (in order), and the ids for which a detail fetch was
attempted (in order). -/
structure FetchRun where
  result : List TalkRec
  saves : List (List TalkRec)
  attempts : List Int
deriving DecidableEq, Repr

/-- `fetch_talks_incremental(filename, limit, delay_s, save_interval)`.
The file system is abstracted into the list of records the snapshot file
loads to (`existing_talks`); the remote listing into `all_ids`; the
per-id detail fetch (including its retries and `parse_talk`) into the
oracle `details`.  The politeness delay does not affect the result and is
not modelled. -/
def fetch_talks_incremental (details : Int → Option TalkRec)
    (existing_talks : List TalkRec) (all_ids : List Int)
    (limit : Option Int) (save_interval : Nat) : FetchRun :=
  let new_ids := pyLimit limit (newIdsOf existing_talks all_ids)
  if new_ids.isEmpty then
    { result := existing_talks, saves := [], attempts := [] }
  else
    let p := fetchLoopTalks details existing_talks save_interval new_ids 0 []
    { result := sortTalks (existing_talks ++ p.1), saves := p.2,
      attempts := new_ids }

/-- `main`: `limit = args.limit if args.limit > 0 else None`. -/
def cliLimit (argLimit : Int) : Option Int :=
  if 0 < argLimit then some argLimit else none

/-! ## JSON values and `load_existing_talks` -/

/-- A parsed JSON value.  (JSON numbers are embedded as integers; no claim
computes with the numeric payloads.) -/
inductive JsonVal where
  | jnull
  | jbool (b : Bool)
  | jnum (n : Int)
  | jstr (s : String)
  | jarr (items : List JsonVal)
  | jobj (fields : List (String × JsonVal))

/-- The state of the snapshot file as seen by `load_existing_talks`:
absent, present but not valid JSON (`json.load` raises
`JSONDecodeError`), or present with a parsed JSON value. -/
inductive FileState where
  | absent
  | invalidJson
  | valid (v : JsonVal)

/-- The Python exceptions `load_existing_talks` can encounter after a
successful `json.load`. -/
inductive PyExc where
  | keyError
  | typeError
deriving DecidableEq, Repr

/-- Python iteration `for t in talks`: a list yields its elements, a dict
yields its keys, a string yields its one-character substrings; `null`,
booleans and numbers are not iterable (`TypeError`). -/
def pyIter : JsonVal → Except PyExc (List JsonVal)
  | .jarr xs => .ok xs
  | .jobj fs => .ok (fs.map (fun f => .jstr f.1))
  | .jstr s => .ok (s.toList.map (fun c => .jstr (String.mk [c])))
  | _ => .error .typeError

/-- Python subscript `t["id"]`: only a dict can be subscripted by a string
key (`KeyError` when the key is missing); all other values raise
`TypeError`. -/
def pyGetId : JsonVal → Except PyExc JsonVal
  | .jobj fs =>
    match fs.lookup "id" with
    | some v => .ok v
    | none => .error .keyError
  | _ => .error .typeError

/-- Python hashability: lists and dicts cannot be put into a set. -/
def pyHashable : JsonVal → Bool
  | .jarr _ => false
  | .jobj _ => false
  | _ => true

/-- Equality between hashable (scalar) JSON values, used for set
membership.  Only scalars are ever inserted into the id set (unhashable
values raise `TypeError` first), so this covers every comparison the set
performs.  Python's cross-type numeric equalities (`True == 1`) are not
modelled: the exact contents of the id set are unobservable in the
properties proved here — only the exception behaviour of building it
matters. -/
def scalarEq : JsonVal → JsonVal → Bool
  | .jnull, .jnull => true
  | .jbool a, .jbool b => a == b
  | .jnum a, .jnum b => a == b
  | .jstr a, .jstr b => a == b
  | _, _ => false

/-- The set comprehension `{t["id"] for t in talks}` over the iterated
elements, evaluated left to right, stopping at the first exception;
the set is represented as a duplicate-free list (its order is not
observable). -/
def idSetOf : List JsonVal → Except PyExc (List JsonVal)
  | [] => .ok []
  | t :: ts =>
    match pyGetId t with
    | .error e => .error e
    | .ok v =>
      if pyHashable v then
        match idSetOf ts with
        | .error e => .error e
        | .ok s => .ok (if s.any (scalarEq v) then s else v :: s)
      else .error .typeError

/-- The observable outcome of `load_existing_talks`: the returned pair,
the caught-and-warned path returning `([], set())`, or an uncaught
exception that aborts the run. -/
inductive LoadOutcome where
  | ok (talks : JsonVal) (ids : List JsonVal)
  | warnEmpty
  | crash (e : PyExc)

/-- `load_existing_talks(filename)`: absent file → `([], set())`;
otherwise `json.load`, build `{t["id"] for t in talks}`, return
`(talks, ids)`; `json.JSONDecodeError` and `KeyError` are caught (warning,
empty result) while any other exception propagates. -/
def load_existing_talks : FileState → LoadOutcome
  | .absent => .ok (.jarr []) []
  | .invalidJson => .warnEmpty
  | .valid v =>
    match pyIter v with
    | .error e => .crash e
    | .ok ts =>
      match idSetOf ts with
      | .ok ids => .ok v ids
      | .error .keyError => .warnEmpty
      | .error .typeError => .crash .typeError

/-! ## `fetch_talk_details` retry loop -/

/-- One HTTP response as seen by `fetch_talk_details`: a 429
(rate-limited), a success whose body parses to `payload`, or a
`requests.RequestException` (connection error, timeout, or a
`raise_for_status` failure). -/
inductive HttpResp where
  | rateLimited
  | ok (payload : JsonVal)
  | failed

/-- The `for attempt in range(max_retries)` loop of `fetch_talk_details`,
driven by `resp : Nat → HttpResp` giving the response to the attempt with
that index.  Returns the payload (or `none` after exhausting retries)
together with the list of sleep durations, in seconds and in order:
`(attempt + 1) * 5` after a 429, a fixed `2` after another failure that is
not the last attempt. -/
def fetchRetry (resp : Nat → HttpResp) : Nat → Nat → Option JsonVal × List Nat
  | 0, _ => (none, [])
  | fuel + 1, attempt =>
    match resp attempt with
    | .ok payload => (some payload, [])
    | .rateLimited =>
      let p := fetchRetry resp fuel (attempt + 1)
      (p.1, (attempt + 1) * 5 :: p.2)
    | .failed =>
      if fuel = 0 then (none, [])
      else
        let p := fetchRetry resp fuel (attempt + 1)
        (p.1, 2 :: p.2)

/-- `fetch_talk_details(talk_id, max_retries)`: run the retry loop from
attempt 0. -/
def fetch_talk_details (resp : Nat → HttpResp) (max_retries : Nat) :
    Option JsonVal × List Nat :=
  fetchRetry resp max_retries 0

/-! ## The forwarding proxy (`server.py`) -/

/-- `DHARMASEED_BASE` from `server.py`. -/
def DHARMASEED_BASE : String := "https://www.dharmaseed.org"

/-- Python `s.startswith(pre)`.  Paths are embedded as character lists. -/
def startswith (s pre : List Char) : Bool :=
  s.take pre.length == pre

/-- What `do_GET` decides to do with a request path: forward it to a
remote URL, or fall through to the static file handler. -/
inductive GetAction where
  | proxyTo (targetUrl : List Char)
  | serveStatic
deriving DecidableEq, Repr

/-- `ProxyHandler.do_GET`: `/feeds/...` is forwarded unchanged,
`/api/...` is forwarded with the leading five characters `/api/` replaced
by `/api/1/`, everything else is served from the local static root. -/
def do_GET (path : List Char) : GetAction :=
  if startswith path "/feeds/".data then
    .proxyTo (DHARMASEED_BASE.data ++ path)
  else if startswith path "/api/".data then
    .proxyTo (DHARMASEED_BASE.data ++ "/api/1/".data ++ path.drop 5)
  else
    .serveStatic

/-- A response sent to the local client: either a normal reply (status,
headers in order, body bytes) or an error reply produced by
`send_error(status, message)`. -/
inductive LocalReply where
  | reply (status : Nat) (headers : List (String × String)) (body : List Nat)
  | errorReply (status : Nat) (message : String)
deriving DecidableEq, Repr

/-- The outcome of the remote call made by `proxy_request`: a successful
response (its `Content-Type` header, possibly absent, and its body
bytes), an `urllib.error.HTTPError` with a status code and reason, or any
other exception with its text. -/
inductive RemoteResult where
  | success (contentType : Option String) (body : List Nat)
  | httpError (code : Nat) (reason : String)
  | otherError (msg : String)
deriving DecidableEq, Repr

/-- `ProxyHandler.proxy_request`: on success send status 200, the remote
`Content-Type` (defaulted to `application/octet-stream`), the length, a
wildcard CORS allow-origin header and the body unchanged; an
`urllib.error.HTTPError` becomes `send_error(e.code, str(e.reason))`; any
other exception becomes `send_error(500, str(e))`. -/
def proxy_request : RemoteResult → LocalReply
  | .success ct data =>
    .reply 200
      [("Content-Type", ct.getD "application/octet-stream"),
       ("Content-Length", toString data.length),
       ("Access-Control-Allow-Origin", "*")]
      data
  | .httpError code reason => .errorReply code reason
  | .otherError msg => .errorReply 500 msg

/-- `ProxyHandler.do_OPTIONS`: always status 200, the three CORS headers,
no body. -/
def do_OPTIONS : LocalReply :=
  .reply 200
    [("Access-Control-Allow-Origin", "*"),
     ("Access-Control-Allow-Methods", "GET, POST, OPTIONS"),
     ("Access-Control-Allow-Headers", "Content-Type")]
    []

/-- Status line of a local reply (`send_error` also sends its status). -/
def statusOf : LocalReply → Nat
  | .reply s _ _ => s
  | .errorReply s _ => s

/-- Headers of a local reply (`send_error` pages carry no headers we
model). -/
def headersOf : LocalReply → List (String × String)
  | .reply _ h _ => h
  | .errorReply _ _ => []

/-- Body bytes of a normal local reply; the HTML page `send_error`
renders around its message is not modelled as bytes. -/
def bodyBytes : LocalReply → List Nat
  | .reply _ _ b => b
  | .errorReply _ _ => []

/-- The checkpoint states the amended checkpoint-cadence property
predicts, written from the amended specification: at every attempt index
`i` with `(i + 1) % save_interval == 0` — counting detail-fetch attempts,
failed ones included — the merged and sorted state built from the
existing records plus the records fetched successfully in the first
`i + 1` attempts is persisted. -/
def checkpointStates (details : Int → Option TalkRec) (existing : List TalkRec)
    (save_interval : Nat) (new_ids : List Int) : List (List TalkRec) :=
  (List.range new_ids.length).filterMap (fun i =>
    if (i + 1) % save_interval == 0 then
      some (sortTalks (existing ++ (new_ids.take (i + 1)).filterMap details))
    else none)

/-! ## Helper lemmas about the fetch loop -/

theorem fetchLoop_fst (d : Int → Option TalkRec) (E : List TalkRec) (s : Nat)
    (ids : List Int) : ∀ (i : Nat) (acc : List TalkRec),
    (fetchLoopTalks d E s ids i acc).1 = acc ++ ids.filterMap d := by
  induction ids with
  | nil => intro i acc; simp [fetchLoopTalks]
  | cons tid restIds ih =>
    intro i acc
    rw [fetchLoopTalks]
    cases hd : d tid with
    | some r =>
      simp only [hd, List.filterMap_cons]
      split
      · simpa using ih (i + 1) (acc ++ [r])
      · simpa using ih (i + 1) (acc ++ [r])
    | none =>
      simp only [hd, List.filterMap_cons]
      split
      · simpa using ih (i + 1) acc
      · simpa using ih (i + 1) acc

theorem fetchLoop_snd (d : Int → Option TalkRec) (E : List TalkRec) (s : Nat)
    (ids : List Int) : ∀ (i : Nat) (acc : List TalkRec),
    (fetchLoopTalks d E s ids i acc).2 =
      (List.range ids.length).filterMap (fun j =>
        if (i + 1 + j) % s == 0 then
          some (sortTalks (E ++ (acc ++ (ids.take (j + 1)).filterMap d)))
        else none) := by
  induction ids with
  | nil => intro i acc; simp [fetchLoopTalks]
  | cons tid restIds ih =>
    intro i acc
    have hrange : List.range (restIds.length + 1) =
        0 :: (List.range restIds.length).map Nat.succ := List.range_succ_eq_map _
    rw [fetchLoopTalks]
    cases hd : d tid with
    | some r =>
      simp only [hd, List.length_cons, hrange, List.filterMap_cons,
        List.filterMap_map]
      have hshift : ∀ j ∈ List.range restIds.length,
          ((fun j => if (i + 1 + j) % s == 0 then
              some (sortTalks (E ++ (acc ++ ((tid :: restIds).take (j + 1)).filterMap d)))
            else none) ∘ Nat.succ) j =
          (fun j => if (i + 1 + 1 + j) % s == 0 then
              some (sortTalks (E ++ ((acc ++ [r]) ++ (restIds.take (j + 1)).filterMap d)))
            else none) j := by
        intro j _
        have harith : i + 1 + (j + 1) = i + 1 + 1 + j := by omega
        simp only [Function.comp, Nat.succ_eq_add_one, harith, List.take_succ_cons,
          List.filterMap_cons, hd]
        simp [List.append_assoc]
      rw [List.filterMap_congr hshift, ← ih (i + 1) (acc ++ [r])]
      simp only [Nat.add_zero, List.take_succ_cons, List.take_zero,
        List.filterMap_cons, hd, List.filterMap_nil]
      split
      · simp
      · simp
    | none =>
      simp only [hd, List.length_cons, hrange, List.filterMap_cons,
        List.filterMap_map]
      have hshift : ∀ j ∈ List.range restIds.length,
          ((fun j => if (i + 1 + j) % s == 0 then
              some (sortTalks (E ++ (acc ++ ((tid :: restIds).take (j + 1)).filterMap d)))
            else none) ∘ Nat.succ) j =
          (fun j => if (i + 1 + 1 + j) % s == 0 then
              some (sortTalks (E ++ (acc ++ (restIds.take (j + 1)).filterMap d)))
            else none) j := by
        intro j _
        have harith : i + 1 + (j + 1) = i + 1 + 1 + j := by omega
        simp only [Function.comp, Nat.succ_eq_add_one, harith, List.take_succ_cons,
          List.filterMap_cons, hd]
      rw [List.filterMap_congr hshift, ← ih (i + 1) acc]
      simp only [Nat.add_zero, List.take_succ_cons, List.take_zero,
        List.filterMap_cons, hd, List.filterMap_nil]
      split
      · simp
      · simp

/-! ## Helper lemmas about ids of the merged snapshot -/

theorem map_id_filterMap (d : Int → Option TalkRec)
    (honest : ∀ i r, d i = some r → r.id = i) :
    ∀ ids : List Int, (ids.filterMap d).map TalkRec.id =
      ids.filter (fun i => (d i).isSome) := by
  intro ids
  induction ids with
  | nil => simp
  | cons x xs ih =>
    cases hd : d x with
    | some r =>
      simp [List.filterMap_cons, hd, List.filter_cons, honest x r hd, ih]
    | none =>
      simp [List.filterMap_cons, hd, List.filter_cons, ih]

theorem pySliceTo_sublist (l : Int) (xs : List Int) :
    (pySliceTo l xs).Sublist xs := by
  unfold pySliceTo
  split
  · exact List.take_sublist _ _
  · exact List.take_sublist _ _

theorem pyLimit_sublist (limit : Option Int) (xs : List Int) :
    (pyLimit limit xs).Sublist xs := by
  cases limit with
  | none => exact List.Sublist.refl _
  | some l =>
    simp only [pyLimit]
    split
    · exact pySliceTo_sublist l xs
    · exact List.Sublist.refl _

theorem newIds_sublist (E : List TalkRec) (A : List Int) (limit : Option Int) :
    (pyLimit limit (newIdsOf E A)).Sublist A :=
  (pyLimit_sublist _ _).trans (List.filter_sublist _)

theorem mem_newIds_not_existing (E : List TalkRec) (A : List Int)
    (limit : Option Int) (x : Int) (hx : x ∈ pyLimit limit (newIdsOf E A)) :
    x ∉ E.map TalkRec.id := by
  have hx2 : x ∈ newIdsOf E A := (pyLimit_sublist _ _).subset hx
  have h3 := (List.mem_filter.mp hx2).2
  simpa [List.contains, List.elem_eq_mem] using h3

theorem merged_ids_nodup (d : Int → Option TalkRec) (E : List TalkRec)
    (A : List Int) (limit : Option Int)
    (hE : (E.map TalkRec.id).Nodup) (hA : A.Nodup)
    (honest : ∀ i r, d i = some r → r.id = i)
    (ids2 : List Int) (hsub : ids2.Sublist (pyLimit limit (newIdsOf E A))) :
    ((E ++ ids2.filterMap d).map TalkRec.id).Nodup := by
  rw [List.map_append]
  have hids2A : ids2.Sublist A := hsub.trans (newIds_sublist E A limit)
  have hnew : ((ids2.filterMap d).map TalkRec.id).Nodup := by
    rw [map_id_filterMap d honest]
    exact (List.filter_sublist _).nodup (hids2A.nodup hA)
  refine hE.append hnew ?_
  intro x hxE hxN
  rw [map_id_filterMap d honest] at hxN
  have hx2 : x ∈ ids2 := (List.filter_sublist _).subset hxN
  exact mem_newIds_not_existing E A limit x (hsub.subset hx2) hxE

theorem run_result_perm (d : Int → Option TalkRec) (E : List TalkRec)
    (A : List Int) (limit : Option Int) (s : Nat) :
    (fetch_talks_incremental d E A limit s).result.Perm
      (E ++ (pyLimit limit (newIdsOf E A)).filterMap d) := by
  simp only [fetch_talks_incremental]
  split
  next h =>
    rw [List.isEmpty_iff] at h
    rw [h]
    simp
  next h =>
    simp only
    rw [fetchLoop_fst]
    simp only [List.nil_append]
    exact List.perm_insertionSort _ _

theorem run_saves_eq (d : Int → Option TalkRec) (E : List TalkRec)
    (A : List Int) (limit : Option Int) (s : Nat) :
    (fetch_talks_incremental d E A limit s).saves =
      checkpointStates d E s (pyLimit limit (newIdsOf E A)) := by
  simp only [fetch_talks_incremental]
  split
  next h =>
    rw [List.isEmpty_iff] at h
    rw [h]
    simp [checkpointStates]
  next h =>
    simp only
    rw [fetchLoop_snd]
    unfold checkpointStates
    apply List.filterMap_congr
    intro j _
    have harith : 0 + 1 + j = j + 1 := by omega
    simp [harith]

theorem run_result_nodup (d : Int → Option TalkRec) (E : List TalkRec)
    (A : List Int) (limit : Option Int) (s : Nat)
    (hE : (E.map TalkRec.id).Nodup) (hA : A.Nodup)
    (honest : ∀ i r, d i = some r → r.id = i) :
    ((fetch_talks_incremental d E A limit s).result.map TalkRec.id).Nodup := by
  have hperm := (run_result_perm d E A limit s).map TalkRec.id
  rw [hperm.nodup_iff]
  exact merged_ids_nodup d E A limit hE hA honest _ (List.Sublist.refl _)

theorem fetchRetry_succ (resp : Nat → HttpResp) (fuel attempt : Nat) :
    fetchRetry resp (fuel + 1) attempt =
      match resp attempt with
      | .ok payload => (some payload, [])
      | .rateLimited =>
        let p := fetchRetry resp fuel (attempt + 1)
        (p.1, (attempt + 1) * 5 :: p.2)
      | .failed =>
        if fuel = 0 then (none, [])
        else
          let p := fetchRetry resp fuel (attempt + 1)
          (p.1, 2 :: p.2) := by
  rw [fetchRetry]

theorem fetchRetry_429s (resp : Nat → HttpResp) (payload : JsonVal) :
    ∀ (n fuel attempt : Nat), n < fuel →
      (∀ i, i < n → resp (attempt + i) = .rateLimited) →
      resp (attempt + n) = .ok payload →
      fetchRetry resp fuel attempt =
        (some payload, (List.range n).map (fun i => (attempt + i + 1) * 5)) := by
  intro n
  induction n with
  | zero =>
    intro fuel attempt hfuel h429 hok
    match fuel, hfuel with
    | fuel + 1, _ =>
      rw [Nat.add_zero] at hok
      rw [fetchRetry_succ, hok]
      simp
  | succ n ih =>
    intro fuel attempt hfuel h429 hok
    match fuel, hfuel with
    | fuel + 1, hfuel =>
      have h0 : resp attempt = .rateLimited := by
        simpa using h429 0 (Nat.succ_pos n)
      rw [fetchRetry_succ, h0]
      have hrec := ih fuel (attempt + 1) (by omega)
        (fun i hi => by
          have h2 := h429 (i + 1) (by omega)
          have harith : attempt + (i + 1) = attempt + 1 + i := by omega
          rwa [harith] at h2)
        (by
          have harith : attempt + (n + 1) = attempt + 1 + n := by omega
          rwa [harith] at hok)
      simp only [hrec]
      rw [List.range_succ_eq_map, List.map_cons, List.map_map]
      have hmap : ∀ j ∈ List.range n,
          ((fun i => (attempt + i + 1) * 5) ∘ Nat.succ) j =
          (fun i => (attempt + 1 + i + 1) * 5) j := by
        intro j _
        simp only [Function.comp, Nat.succ_eq_add_one]
        omega
      rw [List.map_congr_left hmap]

/-! ## Claim theorems -/

/-- C1 (no-loss merge): for every existing snapshot `E` with pairwise
distinct ids, every duplicate-free remote listing, and every detail
oracle whose successful answers carry the requested id, the snapshot
returned by `fetch_talks_incremental` has id set equal to the union of
the existing ids and the ids of the newly fetched records, with no id
occurring twice (no existing record dropped, no fetched record lost). -/
theorem fetch_no_loss_merge (d : Int → Option TalkRec) (E : List TalkRec)
    (A : List Int) (limit : Option Int) (s : Nat)
    (hE : (E.map TalkRec.id).Nodup) (hA : A.Nodup)
    (honest : ∀ i r, d i = some r → r.id = i) :
    (∀ x : Int,
      x ∈ (fetch_talks_incremental d E A limit s).result.map TalkRec.id ↔
      x ∈ E.map TalkRec.id ∨
      x ∈ ((pyLimit limit (newIdsOf E A)).filterMap d).map TalkRec.id) ∧
    ((fetch_talks_incremental d E A limit s).result.map TalkRec.id).Nodup := by
  have hperm := (run_result_perm d E A limit s).map TalkRec.id
  constructor
  · intro x
    rw [hperm.mem_iff, List.map_append, List.mem_append]
  · exact run_result_nodup d E A limit s hE hA honest

theorem fetch_no_loss_merge_witness :
    ((fetch_talks_incremental (fun tid => some (TalkRec.mk tid []))
        [TalkRec.mk 5 []] [5, 6, 7] none 100).result.map TalkRec.id).Nodup ∧
    (6 ∈ (fetch_talks_incremental (fun tid => some (TalkRec.mk tid []))
        [TalkRec.mk 5 []] [5, 6, 7] none 100).result.map TalkRec.id ↔
      6 ∈ [TalkRec.mk 5 []].map TalkRec.id ∨
      6 ∈ ((pyLimit none (newIdsOf [TalkRec.mk 5 []] [5, 6, 7])).filterMap
        (fun tid => some (TalkRec.mk tid []))).map TalkRec.id) :=
  ⟨(fetch_no_loss_merge (fun tid => some (TalkRec.mk tid []))
      [TalkRec.mk 5 []] [5, 6, 7] none 100 (by decide) (by decide)
      (fun i r h => by injection h with h2; subst h2; rfl)).2,
   (fetch_no_loss_merge (fun tid => some (TalkRec.mk tid []))
      [TalkRec.mk 5 []] [5, 6, 7] none 100 (by decide) (by decide)
      (fun i r h => by injection h with h2; subst h2; rfl)).1 6⟩

/-- C2 (idempotence): rerunning the fetcher on a snapshot it just
produced, when every id in the remote listing is already in that
snapshot, returns the loaded list unchanged (so the final
`save_talks_to_json`, a deterministic function of that list, rewrites
identical content), performs no checkpoint save, and attempts no detail
fetch. -/
theorem fetch_idempotent_no_new (d : Int → Option TalkRec) (E : List TalkRec)
    (A : List Int) (limit : Option Int) (s : Nat)
    (h : ∀ tid ∈ A, tid ∈ E.map TalkRec.id) :
    fetch_talks_incremental d E A limit s = ⟨E, [], []⟩ := by
  have hnil : newIdsOf E A = [] := by
    rw [newIdsOf, List.filter_eq_nil_iff]
    intro a ha
    simp [List.contains, List.elem_eq_mem, h a ha]
  have hlim : pyLimit limit (newIdsOf E A) = [] := by
    rw [hnil]
    cases limit with
    | none => rfl
    | some l => simp [pyLimit, pySliceTo]
  simp [fetch_talks_incremental, hlim]

theorem fetch_idempotent_no_new_witness :
    fetch_talks_incremental (fun _ => none) [TalkRec.mk 1 []] [1] (some 100)
      100 = ⟨[TalkRec.mk 1 []], [], []⟩ :=
  fetch_idempotent_no_new (fun _ => none) [TalkRec.mk 1 []] [1] (some 100) 100
    (by decide)

/-- C3, counterexample: quantified over *every* remote listing, the
unique-id invariant fails — a listing that repeats an id not yet in the
snapshot (here `[42, 42]`) makes the fetcher fetch that id twice and
persist, at final save, a snapshot containing two records with id 42. -/
theorem snapshot_unique_ids_counterexample :
    ¬ (((fetch_talks_incremental (fun tid => some (TalkRec.mk tid []))
        [] [42, 42] none 100).result.map TalkRec.id).Nodup) := by
  decide

/-- C3, amended: provided the remote listing is duplicate-free, the
prior snapshot satisfies the snapshot invariant (pairwise distinct ids),
and each successful detail fetch returns a record carrying the requested
id, every state persisted by a periodic checkpoint and the final
returned snapshot contain no two records with the same id. -/
theorem snapshot_unique_ids_amended (d : Int → Option TalkRec)
    (E : List TalkRec) (A : List Int) (limit : Option Int) (s : Nat)
    (hE : (E.map TalkRec.id).Nodup) (hA : A.Nodup)
    (honest : ∀ i r, d i = some r → r.id = i) :
    (∀ sv ∈ (fetch_talks_incremental d E A limit s).saves,
      (sv.map TalkRec.id).Nodup) ∧
    ((fetch_talks_incremental d E A limit s).result.map TalkRec.id).Nodup := by
  refine ⟨?_, run_result_nodup d E A limit s hE hA honest⟩
  intro sv hsv
  rw [run_saves_eq] at hsv
  unfold checkpointStates at hsv
  rw [List.mem_filterMap] at hsv
  obtain ⟨j, _, hoq⟩ := hsv
  split at hoq
  · injection hoq with hoq2
    subst hoq2
    unfold sortTalks
    have hperm := (List.perm_insertionSort
      (fun a b : TalkRec => b.id ≤ a.id)
      (E ++ ((pyLimit limit (newIdsOf E A)).take (j + 1)).filterMap d)).map
        TalkRec.id
    rw [hperm.nodup_iff]
    exact merged_ids_nodup d E A limit hE hA honest _ (List.take_sublist _ _)
  · cases hoq

theorem snapshot_unique_ids_amended_witness :
    ((fetch_talks_incremental (fun tid => some (TalkRec.mk tid [])) [] [4, 5]
        none 1).result.map TalkRec.id).Nodup :=
  (snapshot_unique_ids_amended (fun tid => some (TalkRec.mk tid [])) [] [4, 5]
    none 1 (by decide) (by decide)
    (fun i r h => by injection h with h2; subst h2; rfl)).2

/-- C4, counterexample: checkpoints fire every `save_interval` loop
*iterations*, not every `save_interval` *successful* fetches.  With
`save_interval = 2`, listing `[1, 2, 3]`, and an oracle that fails on id
1 and succeeds on ids 2 and 3, two detail fetches succeed during the run,
yet the only checkpoint ever persisted holds a single new record, and no
checkpoint contains the record of the second success. -/
theorem checkpoint_on_successes_counterexample :
    (fetch_talks_incremental
        (fun tid => if tid = 2 then some (TalkRec.mk 2 []) else
          if tid = 3 then some (TalkRec.mk 3 []) else none)
        [] [1, 2, 3] none 2).saves = [[TalkRec.mk 2 []]] ∧
    ¬ ∃ sv ∈ (fetch_talks_incremental
        (fun tid => if tid = 2 then some (TalkRec.mk 2 []) else
          if tid = 3 then some (TalkRec.mk 3 []) else none)
        [] [1, 2, 3] none 2).saves, TalkRec.mk 3 [] ∈ sv := by
  decide

/-- C4, amended: after every `save_interval` detail-fetch *attempts*
(successful or failed), the current merged and sorted state — all
existing records plus all records fetched successfully so far — is
persisted to the snapshot file: the list of checkpointed states is
exactly `checkpointStates`. -/
theorem checkpoint_every_interval_attempts (d : Int → Option TalkRec)
    (E : List TalkRec) (A : List Int) (limit : Option Int) (s : Nat) :
    (fetch_talks_incremental d E A limit s).saves =
      checkpointStates d E s (pyLimit limit (newIdsOf E A)) :=
  run_saves_eq d E A limit s

/-- C5 (retry/backoff): for a response sequence of `n` HTTP 429 responses
(`n` below the retry ceiling) followed by a success,
`fetch_talk_details` returns the successful payload, sleeping exactly
`(attempt + 1) * 5` seconds after the 429 with index `attempt` — a
strictly increasing sleep between consecutive attempts. -/
theorem retry_backoff_429 (resp : Nat → HttpResp) (payload : JsonVal)
    (n max_retries : Nat) (hn : n < max_retries)
    (h429 : ∀ i, i < n → resp i = .rateLimited)
    (hok : resp n = .ok payload) :
    fetch_talk_details resp max_retries =
      (some payload, (List.range n).map (fun i => (i + 1) * 5)) ∧
    ((List.range n).map (fun i => (i + 1) * 5)).Pairwise (· < ·) := by
  constructor
  · have h := fetchRetry_429s resp payload n max_retries 0 hn
      (fun i hi => by simpa using h429 i hi) (by simpa using hok)
    rw [fetch_talk_details, h]
    have hmap : ∀ j ∈ List.range n,
        (fun i => (0 + i + 1) * 5) j = (fun i => (i + 1) * 5) j := by
      intro j _
      simp
    rw [List.map_congr_left hmap]
  · exact List.Pairwise.map _ (fun a b hab => by omega)
      (List.pairwise_lt_range n)

theorem retry_backoff_429_witness :
    fetch_talk_details (fun i => if i < 2 then .rateLimited else .ok .jnull)
      5 = (some .jnull, [5, 10]) ∧
    ([5, 10] : List Nat).Pairwise (· < ·) := by
  have h := retry_backoff_429
    (fun i => if i < 2 then .rateLimited else .ok .jnull) .jnull 2 5
    (by omega) (fun i hi => by interval_cases i <;> rfl) (by rfl)
  exact ⟨h.1.trans rfl, by decide⟩

/-- C6 (cap enforcement): with `limit = k` (`k ≥ 1`) and more than `k`
new remote ids, exactly `k` detail-fetch attempts are made — the first
`k` new ids in listing order — and no attempt targets an id already in
the snapshot. -/
theorem cap_enforcement (d : Int → Option TalkRec) (E : List TalkRec)
    (A : List Int) (s : Nat) (k : Nat) (hk : 1 ≤ k)
    (hm : k < (newIdsOf E A).length) :
    (fetch_talks_incremental d E A (some (k : Int)) s).attempts =
      (newIdsOf E A).take k ∧
    (fetch_talks_incremental d E A (some (k : Int)) s).attempts.length = k ∧
    ∀ tid ∈ (fetch_talks_incremental d E A (some (k : Int)) s).attempts,
      tid ∉ E.map TalkRec.id := by
  have hk0 : (k : Int) ≠ 0 := Int.natCast_ne_zero.mpr (by omega)
  have hkm : (k : Int) < ((newIdsOf E A).length : Int) := by exact_mod_cast hm
  have hlim : pyLimit (some (k : Int)) (newIdsOf E A) = (newIdsOf E A).take k := by
    simp only [pyLimit]
    rw [if_pos ⟨hk0, hkm⟩]
    simp [pySliceTo]
  have hne2 : (newIdsOf E A).take k ≠ [] := by
    intro h0
    have hlen := congrArg List.length h0
    rw [List.length_take] at hlen
    simp only [List.length_nil] at hlen
    omega
  have hne : ((newIdsOf E A).take k).isEmpty = false :=
    List.isEmpty_eq_false.mpr hne2
  have hatt : (fetch_talks_incremental d E A (some (k : Int)) s).attempts =
      (newIdsOf E A).take k := by
    simp only [fetch_talks_incremental, hlim, hne]
    simp
  refine ⟨hatt, ?_, ?_⟩
  · rw [hatt, List.length_take]
    omega
  · intro tid htid
    rw [hatt] at htid
    exact mem_newIds_not_existing E A (some (k : Int)) tid (hlim ▸ htid)

theorem cap_enforcement_witness :
    (fetch_talks_incremental (fun _ => none) [] [1, 2, 3]
        (some ((2 : Nat) : Int)) 100).attempts = (newIdsOf [] [1, 2, 3]).take 2 ∧
    (fetch_talks_incremental (fun _ => none) [] [1, 2, 3]
        (some ((2 : Nat) : Int)) 100).attempts.length = 2 :=
  ⟨(cap_enforcement (fun _ => none) [] [1, 2, 3] 100 2 (by decide) (by decide)).1,
   (cap_enforcement (fun _ => none) [] [1, 2, 3] 100 2 (by decide) (by decide)).2.1⟩

/-- C10 (zero cap means unlimited): the CLI maps `--limit 0` to `None`,
and with `limit = None` or `limit = 0` the new-id list is not truncated:
a detail fetch is attempted for every remote id not already in the
snapshot. -/
theorem zero_cap_unlimited (d : Int → Option TalkRec) (E : List TalkRec)
    (A : List Int) (limit : Option Int) (s : Nat)
    (h : limit = none ∨ limit = some 0) :
    cliLimit 0 = none ∧
    (fetch_talks_incremental d E A limit s).attempts = newIdsOf E A := by
  refine ⟨rfl, ?_⟩
  have hlim : pyLimit limit (newIdsOf E A) = newIdsOf E A := by
    rcases h with h | h <;> subst h
    · rfl
    · simp [pyLimit]
  simp only [fetch_talks_incremental, hlim]
  split
  next he =>
    rw [List.isEmpty_iff] at he
    simp [he]
  next he => rfl

theorem zero_cap_unlimited_witness :
    cliLimit 0 = none ∧
    (fetch_talks_incremental (fun _ => none) [] [7] none 100).attempts =
      newIdsOf [] [7] :=
  zero_cap_unlimited (fun _ => none) [] [7] none 100 (Or.inl rfl)

theorem idSetOf_keyError :
    ∀ xs : List JsonVal,
      (∀ t ∈ xs, ∃ fs, t = JsonVal.jobj fs) →
      (∀ fs v, JsonVal.jobj fs ∈ xs → fs.lookup "id" = some v →
        pyHashable v = true) →
      (∃ fs, JsonVal.jobj fs ∈ xs ∧ fs.lookup "id" = none) →
      idSetOf xs = .error .keyError := by
  intro xs
  induction xs with
  | nil =>
    intro _ _ hmiss
    obtain ⟨fs, hmem, _⟩ := hmiss
    cases hmem
  | cons t ts ih =>
    intro hobj hhash hmiss
    obtain ⟨fs, ht⟩ := hobj t (List.mem_cons_self t ts)
    subst ht
    cases hl : fs.lookup "id" with
    | none =>
      simp [idSetOf, pyGetId, hl]
    | some v =>
      have hv : pyHashable v = true :=
        hhash fs v (List.mem_cons_self _ _) hl
      have hts : idSetOf ts = .error .keyError := by
        apply ih
        · intro t2 ht2
          exact hobj t2 (List.mem_cons_of_mem _ ht2)
        · intro fs2 v2 hm2 hl2
          exact hhash fs2 v2 (List.mem_cons_of_mem _ hm2) hl2
        · obtain ⟨fs2, hm2, hl2⟩ := hmiss
          rcases List.mem_cons.mp hm2 with heq | hm3
          · injection heq with h3
            subst h3
            rw [hl] at hl2
            cases hl2
          · exact ⟨fs2, hm3, hl2⟩
      simp [idSetOf, pyGetId, hl, hv, hts]

/-- C7, counterexample: not every malformed snapshot is recovered from —
a file containing the valid JSON value `null` is malformed as a snapshot,
and `load_existing_talks` raises an uncaught `TypeError` (aborting the
run) instead of logging a warning and returning empty: only
`json.JSONDecodeError` and `KeyError` are caught. -/
theorem load_malformed_counterexample :
    load_existing_talks (.valid .jnull) = .crash .typeError ∧
    LoadOutcome.crash .typeError ≠ LoadOutcome.warnEmpty :=
  ⟨rfl, fun h => nomatch h⟩

/-- C7, amended: an absent file yields the empty collection and empty id
set; a file that is not valid JSON is caught, logged and treated as
empty; and a JSON array of objects in which some object lacks the `id`
key (the other objects' `id` values being hashable) raises `KeyError`,
which is caught, logged and treated as empty.  Other malformed shapes
(JSON that is not an array of objects, such as `null`, a number, or an
array of scalars) instead raise an uncaught `TypeError`. -/
theorem load_malformed_amended :
    load_existing_talks .absent = .ok (.jarr []) [] ∧
    load_existing_talks .invalidJson = .warnEmpty ∧
    ∀ xs : List JsonVal,
      (∀ t ∈ xs, ∃ fs, t = JsonVal.jobj fs) →
      (∀ fs v, JsonVal.jobj fs ∈ xs → fs.lookup "id" = some v →
        pyHashable v = true) →
      (∃ fs, JsonVal.jobj fs ∈ xs ∧ fs.lookup "id" = none) →
      load_existing_talks (.valid (.jarr xs)) = .warnEmpty := by
  refine ⟨rfl, rfl, ?_⟩
  intro xs hobj hhash hmiss
  have h := idSetOf_keyError xs hobj hhash hmiss
  simp [load_existing_talks, pyIter, h]

theorem load_malformed_amended_witness :
    load_existing_talks (.valid (.jarr [.jobj []])) = .warnEmpty :=
  load_malformed_amended.2.2 [.jobj []]
    (fun t ht => by
      rw [List.mem_singleton] at ht
      exact ⟨[], ht⟩)
    (fun fs v hm hl => by
      rw [List.mem_singleton] at hm
      injection hm with h2
      subst h2
      cases hl)
    ⟨[], List.mem_singleton.mpr rfl, rfl⟩

theorem api_not_feeds (p : List Char)
    (h : startswith p "/api/".data = true) :
    startswith p "/feeds/".data = false := by
  cases hf : startswith p "/feeds/".data
  · rfl
  · exfalso
    rw [startswith] at h hf
    have h5 : p.take ("/api/".data.length) = "/api/".data := eq_of_beq h
    have h7 : p.take ("/feeds/".data.length) = "/feeds/".data := eq_of_beq hf
    have e5 : ("/api/".data).length = 5 := rfl
    have e7 : ("/feeds/".data).length = 7 := rfl
    rw [e5] at h5
    rw [e7] at h7
    have htt := List.take_take 5 7 p
    rw [h7] at htt
    have hmin : (5 : Nat) ⊓ 7 = 5 := rfl
    rw [hmin, h5] at htt
    exact absurd htt (by decide)

/-- C8 (proxy routing): a GET whose path starts with `/api/` is forwarded
to the remote origin with the leading `/api/` replaced by `/api/1/` (so
`/api/talks/` goes to `{remote}/api/1/talks/`); a GET whose path starts
with `/feeds/` is forwarded with the path unchanged; any other GET is
served from the local static root; and an OPTIONS request returns status
200 with the CORS allow-origin header and an empty body. -/
theorem proxy_routing :
    do_GET "/api/talks/".data =
      .proxyTo "https://www.dharmaseed.org/api/1/talks/".data ∧
    (∀ p : List Char, startswith p "/api/".data = true →
      do_GET p = .proxyTo (DHARMASEED_BASE.data ++ "/api/1/".data ++
        p.drop 5)) ∧
    (∀ p : List Char, startswith p "/feeds/".data = true →
      do_GET p = .proxyTo (DHARMASEED_BASE.data ++ p)) ∧
    (∀ p : List Char, startswith p "/api/".data = false →
      startswith p "/feeds/".data = false → do_GET p = .serveStatic) ∧
    statusOf do_OPTIONS = 200 ∧
    ("Access-Control-Allow-Origin", "*") ∈ headersOf do_OPTIONS ∧
    bodyBytes do_OPTIONS = [] := by
  refine ⟨by decide, ?_, ?_, ?_, rfl, List.mem_cons_self _ _, rfl⟩
  · intro p h
    have hf := api_not_feeds p h
    rw [do_GET, if_neg (by simp [hf]), if_pos h]
  · intro p h
    rw [do_GET, if_pos h]
  · intro p ha hf
    rw [do_GET, if_neg (by simp [hf]), if_neg (by simp [ha])]

theorem proxy_routing_witness :
    do_GET "/api/teachers/".data =
      .proxyTo (DHARMASEED_BASE.data ++ "/api/1/".data ++
        "/api/teachers/".data.drop 5) ∧
    do_GET "/feeds/teacher/5/".data =
      .proxyTo (DHARMASEED_BASE.data ++ "/feeds/teacher/5/".data) ∧
    do_GET "/index.html".data = .serveStatic :=
  ⟨proxy_routing.2.1 _ (by decide),
   proxy_routing.2.2.1 _ (by decide),
   proxy_routing.2.2.2.1 _ (by decide) (by decide)⟩

/-- C9 (proxy failure mapping): a remote `HTTPError` with status `s` and
reason `r` surfaces locally as `send_error(s, r)`; any other exception
surfaces as `send_error(500, text)`; a remote success surfaces as local
status 200 with the remote `Content-Type` and body relayed unchanged
plus a wildcard `Access-Control-Allow-Origin` header. -/
theorem proxy_failure_mapping :
    (∀ (s : Nat) (r : String),
      proxy_request (.httpError s r) = .errorReply s r) ∧
    (∀ m : String, proxy_request (.otherError m) = .errorReply 500 m) ∧
    (∀ (ct : Option String) (data : List Nat),
      statusOf (proxy_request (.success ct data)) = 200 ∧
      bodyBytes (proxy_request (.success ct data)) = data ∧
      ("Content-Type", ct.getD "application/octet-stream") ∈
        headersOf (proxy_request (.success ct data)) ∧
      ("Access-Control-Allow-Origin", "*") ∈
        headersOf (proxy_request (.success ct data))) :=
  ⟨fun _ _ => rfl, fun _ => rfl,
   fun ct data => ⟨rfl, rfl, List.mem_cons_self _ _, by
     simp [proxy_request, headersOf]⟩⟩

end DharmaTalk
